import Mathlib

/-!
Verification of the phrase-to-SQL translator of the Text-to-SQL-Converter
repository (`server.js`).  The translator core consists of the functions
`generateSQLFromText`, `extractWhereConditions`, `findBestColumnMatch`,
`extractColumns`, `extractOrderBy`, `extractColumnForAggregate` and
`extractLimit`.

The JavaScript source works with case-insensitive regular expressions over
plain strings.  The embedding below models each concrete regex of the source
as an executable scanner over `List Char`, and the translator as total Lean
functions.  JavaScript peculiarities that matter are modelled explicitly:

* `JSON`-level nulls: a builder that would throw a `TypeError` (unused in
  practice) is modelled by an `Option`-valued builder, `none` standing for a
  thrown exception;
* template-literal insertion of `null` / `undefined` produces the literal
  strings "null" / "undefined";
* `isNaN(string)` is modelled by `jsIsNaNStr` following `Number(string)`
  coercion for the character set that can actually reach it;
* the empty string is falsy: `a[0] || b[0]` is modelled accordingly.

Character classes follow the JavaScript regex classes: `\w` is
`[A-Za-z0-9_]`, `\s` is whitespace, `.` matches anything except a line
terminator.
-/

namespace TextToSQL

/-- JavaScript regex `\w`: ASCII letters, digits and underscore. -/
def isWordChar (c : Char) : Bool := c.isAlphanum || c == '_'

/-- JavaScript regex `\s` (ASCII part): space, tab, newline, CR, VT, FF. -/
def isSpaceChar (c : Char) : Bool :=
  c == ' ' || c == '\t' || c == '\n' || c == '\r' ||
  c == Char.ofNat 11 || c == Char.ofNat 12

/-- JavaScript line terminators excluded by `.` in a regex. -/
def isNewlineChar (c : Char) : Bool := c == '\n' || c == '\r'

/-- ASCII single quote, kept out of character-literal syntax on purpose. -/
def quoteChar : Char := Char.ofNat 39

/-- ASCII double quote. -/
def dquoteChar : Char := Char.ofNat 34

/-- `String.toLowerCase()` (ASCII case mapping, as `Char.toLower`). -/
def lowerStr (s : String) : String := ⟨s.data.map Char.toLower⟩

/-- `String.toUpperCase()` (ASCII case mapping, as `Char.toUpper`). -/
def upperStr (s : String) : String := ⟨s.data.map Char.toUpper⟩

/-- `String.trim()`: strip leading and trailing whitespace. -/
def trimStr (s : String) : String :=
  ⟨((s.data.dropWhile isSpaceChar).reverse.dropWhile isSpaceChar).reverse⟩

/-- Boolean list-prefix test (used to model `String.startsWith`). -/
def isPrefixB : List Char → List Char → Bool
  | [], _ => true
  | _ :: _, [] => false
  | a :: as, b :: bs => a == b && isPrefixB as bs

/-- Boolean list-infix test (used to model `String.includes`). -/
def isInfixB (p : List Char) : List Char → Bool
  | [] => p.isEmpty
  | c :: cs => isPrefixB p (c :: cs) || isInfixB p cs

/-- JavaScript `s.includes(sub)` (substring containment). -/
def strIncludes (s sub : String) : Bool := isInfixB sub.data s.data

/-- JavaScript `s.startsWith(p)`. -/
def strStartsWith (s p : String) : Bool := isPrefixB p.data s.data

/-- First `some` result of `f` over a list, in order (models both JS `find`
style loops and first-match-wins regex alternation). -/
def firstSome {α β : Type} (f : α → Option β) : List α → Option β
  | [] => none
  | a :: as =>
    match f a with
    | some b => some b
    | none => firstSome f as

/-- Leftmost-match driver for scanners that do not need boundary context:
try `f` at every suffix of the input, leftmost first. -/
def scanFirst {α : Type} (f : List Char → Option α) : List Char → Option α
  | [] => f []
  | c :: cs =>
    match f (c :: cs) with
    | some a => some a
    | none => scanFirst f cs

/-- Leftmost-test driver for scanners that need the preceding character
(for `\b` word boundaries): try `f` at every suffix, tracking the previous
character. -/
def scanTest (f : Option Char → List Char → Bool) : Option Char → List Char → Bool
  | prev, [] => f prev []
  | prev, c :: cs => f prev (c :: cs) || scanTest f (some c) cs

/-- Whether the previous character is a word character (for `\b`). -/
def prevIsWord : Option Char → Bool
  | none => false
  | some c => isWordChar c

/-- Case-insensitive literal match: `pat` (given lower-case) against a
prefix of the input; returns the rest of the input on success. -/
def matchLitCI : List Char → List Char → Option (List Char)
  | [], s => some s
  | _ :: _, [] => none
  | p :: ps, c :: cs => if c.toLower == p then matchLitCI ps cs else none

/-- `\b w \b` at the current position: boundary before, literal `w`
(which starts and ends with a word character), boundary after. -/
def matchWordCI (w : List Char) (prev : Option Char) (s : List Char) :
    Option (List Char) :=
  if prevIsWord prev then none
  else
    match matchLitCI w s with
    | none => none
    | some rest =>
      match rest with
      | [] => some []
      | c :: _ => if isWordChar c then none else some rest

/-- First whole-word alternative that matches at the current position. -/
def wordAltCI (ws : List (List Char)) (prev : Option Char) (s : List Char) :
    Option (List Char) :=
  firstSome (fun w => matchWordCI w prev s) ws

/-- `\b` after a word character: next char must be a non-word or the end. -/
def boundaryAfterWord : List Char → Bool
  | [] => true
  | c :: _ => !isWordChar c

end TextToSQL

namespace TextToSQL

/-- JavaScript truthiness of a `string | undefined` value: defined and
nonempty (the empty string is falsy). -/
def jsTruthy : Option String → Bool
  | some s => !(s == "")
  | none => false

/-- `findBestColumnMatch(word, columnNames)` (server.js, lines 497-513):
exact lower-case match, then `col.toLowerCase().includes(lowerWord)`, then
`lowerWord.includes(col.toLowerCase())`, else `null`.  Each tier's result
is used through a truthiness guard (`if (exactMatch) return exactMatch;`
and so on), so a found empty-named column is falsy and control falls
through to the next tier. -/
def findBestColumnMatch (word : String) (columnNames : List String) :
    Option String :=
  let lowerWord := lowerStr word
  let exactMatch := columnNames.find? (fun col => lowerStr col == lowerWord)
  if jsTruthy exactMatch then exactMatch
  else
    let containsMatch := columnNames.find? (fun col => strIncludes (lowerStr col) lowerWord)
    if jsTruthy containsMatch then containsMatch
    else
      let partMatch := columnNames.find? (fun col => strIncludes lowerWord (lowerStr col))
      if jsTruthy partMatch then partMatch
      else none

/-- Modelled from the spec (§4.2 Column Resolver): three tie-break tiers,
first success wins, "first such column in the supplied column order"
rendered by `List.find?`. -/
def resolveSpec (word : String) (cols : List String) : Option String :=
  (cols.find? fun col => lowerStr col == lowerStr word) <|>
    ((cols.find? fun col => strIncludes (lowerStr col) (lowerStr word)) <|>
      (cols.find? fun col => strIncludes (lowerStr word) (lowerStr col)))

/-- One tier of the amended resolver description: the first column (in
supplied order) satisfying the tier predicate counts only when it is not
the empty-named column (JavaScript truthiness). -/
def tierHit (p : String → Bool) (cols : List String) : Option String :=
  match cols.find? p with
  | some m => if m == "" then none else some m
  | none => none

/-- Modelled from the spec (§4.2 Column Resolver), amended by the
truthiness guards of the source: the three tie-break tiers in order, a
tier whose first matching column is empty-named treated as no match. -/
def resolveSpecTruthy (word : String) (cols : List String) : Option String :=
  tierHit (fun col => lowerStr col == lowerStr word) cols <|>
    (tierHit (fun col => strIncludes (lowerStr col) (lowerStr word)) cols <|>
      tierHit (fun col => strIncludes (lowerStr word) (lowerStr col)) cols)

end TextToSQL

namespace TextToSQL

/-! ### WHERE-condition extraction (server.js, lines 421-494)

Each of the six condition regexes of `extractWhereConditions` is modelled by
a per-position matcher (`...At`) run through `scanFirst` (leftmost match,
like `text.match(regex)` without the `g` flag).  Captures keep the original
case of the input, as in JavaScript. -/

/-- Value class `[\d.]+` of the comparison regexes. -/
def isNumDotChar (c : Char) : Bool := c.isDigit || c == '.'

/-- Value class `[\w.]+` of the equality and generic-comparator regexes. -/
def isWordDotChar (c : Char) : Bool := isWordChar c || c == '.'

/-- Value class `[^'"\s]+` of the containment and named regexes. -/
def isBareValChar (c : Char) : Bool :=
  !(c == quoteChar || c == dquoteChar || isSpaceChar c)

/-- `['"]?([^'"\s]+)['"]?`: optional quote, then a nonempty run of
non-quote, non-space characters (the trailing optional quote never fails). -/
def parseQVal (s : List Char) : Option String :=
  match s with
  | [] => none
  | c :: cs =>
    if c == quoteChar || c == dquoteChar then
      let v := cs.takeWhile isBareValChar
      if v.isEmpty then none else some (String.mk v)
    else
      let v := (c :: cs).takeWhile isBareValChar
      if v.isEmpty then none else some (String.mk v)

/-- `(\w+)\s+(?:<phrases>)\s+([\d.]+)` at one position (used for the
greater-than and less-than regexes). -/
def condNumCmpAt (phrases : List (List Char)) (s : List Char) :
    Option (String × String) :=
  let wrd := s.takeWhile isWordChar
  if wrd.isEmpty then none
  else
    let r1 := s.dropWhile isWordChar
    if (r1.takeWhile isSpaceChar).isEmpty then none
    else
      match firstSome (fun ph => matchLitCI ph (r1.dropWhile isSpaceChar)) phrases with
      | none => none
      | some r3 =>
        if (r3.takeWhile isSpaceChar).isEmpty then none
        else
          let num := (r3.dropWhile isSpaceChar).takeWhile isNumDotChar
          if num.isEmpty then none else some (String.mk wrd, String.mk num)

/-- `(\w+)\s+(?:equal to|exactly|is)\s+([\w.]+)` at one position. -/
def condEqAt (s : List Char) : Option (String × String) :=
  let wrd := s.takeWhile isWordChar
  if wrd.isEmpty then none
  else
    let r1 := s.dropWhile isWordChar
    if (r1.takeWhile isSpaceChar).isEmpty then none
    else
      match firstSome (fun ph => matchLitCI ph (r1.dropWhile isSpaceChar))
          ["equal to".data, "exactly".data, "is".data] with
      | none => none
      | some r3 =>
        if (r3.takeWhile isSpaceChar).isEmpty then none
        else
          let v := (r3.dropWhile isSpaceChar).takeWhile isWordDotChar
          if v.isEmpty then none else some (String.mk wrd, String.mk v)

/-- `(\w+)\s+(?:containing|contain|like|with)\s+['"]?([^'"\s]+)['"]?`
at one position. -/
def condLikeAt (s : List Char) : Option (String × String) :=
  let wrd := s.takeWhile isWordChar
  if wrd.isEmpty then none
  else
    let r1 := s.dropWhile isWordChar
    if (r1.takeWhile isSpaceChar).isEmpty then none
    else
      match firstSome (fun ph => matchLitCI ph (r1.dropWhile isSpaceChar))
          ["containing".data, "contain".data, "like".data, "with".data] with
      | none => none
      | some r3 =>
        if (r3.takeWhile isSpaceChar).isEmpty then none
        else
          (parseQVal (r3.dropWhile isSpaceChar)).map fun v => (String.mk wrd, v)

/-- `(\w+)\s+([><=]=?)\s+([\w.]+)` at one position; the greedy `=?` is
tried with the extra `=` first, then without. -/
def condCmpAt (s : List Char) : Option (String × String × String) :=
  let wrd := s.takeWhile isWordChar
  if wrd.isEmpty then none
  else
    let r1 := s.dropWhile isWordChar
    if (r1.takeWhile isSpaceChar).isEmpty then none
    else
      let afterOp : List Char → String → Option (String × String × String) :=
        fun t op =>
          if (t.takeWhile isSpaceChar).isEmpty then none
          else
            let v := (t.dropWhile isSpaceChar).takeWhile isWordDotChar
            if v.isEmpty then none else some (String.mk wrd, op, String.mk v)
      match r1.dropWhile isSpaceChar with
      | [] => none
      | c :: cs =>
        if c == '>' || c == '<' || c == '=' then
          match cs with
          | d :: ds =>
            if d == '=' then
              match afterOp ds (String.mk [c, d]) with
              | some r => some r
              | none => afterOp cs (String.mk [c])
            else afterOp cs (String.mk [c])
          | [] => afterOp [] (String.mk [c])
        else none

/-- `(?:named|called|name is|is)\s+['"]?([^'"\s]+)['"]?` at one position. -/
def condNamedAt (s : List Char) : Option String :=
  match firstSome (fun ph => matchLitCI ph s)
      ["named".data, "called".data, "name is".data, "is".data] with
  | none => none
  | some r =>
    if (r.takeWhile isSpaceChar).isEmpty then none
    else parseQVal (r.dropWhile isSpaceChar)

/-- `Number(string)` coercion is a number (not NaN) for strings over the
`[\w.]` character set that can reach `isNaN` here: decimal literals with an
optional fraction and exponent, `0x`/`0b`/`0o` literals, and `Infinity`. -/
def jsDecimalTail (l : List Char) : Bool :=
  match l with
  | [] => true
  | c :: cs => (c == 'e' || c == 'E') && !cs.isEmpty && cs.all Char.isDigit

/-- Decimal-literal body of `Number(string)`. -/
def jsDecimal (l : List Char) : Bool :=
  let d1 := l.takeWhile Char.isDigit
  match l.dropWhile Char.isDigit with
  | '.' :: r2 =>
    (!d1.isEmpty || !(r2.takeWhile Char.isDigit).isEmpty) &&
      jsDecimalTail (r2.dropWhile Char.isDigit)
  | r => !d1.isEmpty && jsDecimalTail r

/-- Hex digit for `0x` literals. -/
def isHexChar (c : Char) : Bool :=
  c.isDigit || ('a' ≤ c.toLower && c.toLower ≤ 'f')

/-- Whether `Number(s)` is a number (see `jsDecimalTail`). -/
def jsNumericLike (l : List Char) : Bool :=
  if l == "Infinity".data then true
  else
    match l with
    | '0' :: c :: rest =>
      if c == 'x' || c == 'X' then !rest.isEmpty && rest.all isHexChar
      else if c == 'b' || c == 'B' then
        !rest.isEmpty && rest.all (fun d => d == '0' || d == '1')
      else if c == 'o' || c == 'O' then
        !rest.isEmpty && rest.all (fun d => '0' ≤ d && d ≤ '7')
      else jsDecimal l
    | _ => jsDecimal l

/-- JavaScript `isNaN(s)` for the strings produced by the value captures. -/
def jsIsNaNStr (s : String) : Bool := !jsNumericLike s.data

/-- Greater-than condition (regex 1 of `extractWhereConditions`):
`column > value` if the captured word resolves to a column. -/
def condResultGt (text : String) (cols : List String) : Option String :=
  (scanFirst (condNumCmpAt
      ["greater than".data, "more than".data, "above".data, "over".data])
    text.data).bind fun wn =>
    (findBestColumnMatch wn.1 cols).map fun col => col ++ " > " ++ wn.2

/-- Less-than condition (regex 2): `column < value`. -/
def condResultLt (text : String) (cols : List String) : Option String :=
  (scanFirst (condNumCmpAt
      ["less than".data, "fewer than".data, "below".data, "under".data])
    text.data).bind fun wn =>
    (findBestColumnMatch wn.1 cols).map fun col => col ++ " < " ++ wn.2

/-- Equality condition (regex 3): `column = value`, quoting the value when
`isNaN(value)`. -/
def condResultEq (text : String) (cols : List String) : Option String :=
  (scanFirst condEqAt text.data).bind fun wn =>
    let value :=
      if jsIsNaNStr wn.2 then String.mk [quoteChar] ++ wn.2 ++ String.mk [quoteChar]
      else wn.2
    (findBestColumnMatch wn.1 cols).map fun col => col ++ " = " ++ value

/-- Containment condition (regex 4): `column LIKE '%value%'`. -/
def condResultLike (text : String) (cols : List String) : Option String :=
  (scanFirst condLikeAt text.data).bind fun wn =>
    (findBestColumnMatch wn.1 cols).map fun col =>
      col ++ " LIKE " ++ String.mk [quoteChar, '%'] ++ wn.2 ++ String.mk ['%', quoteChar]

/-- Generic comparator condition (regex 5): `column <op> value`, quoting a
non-numeric value unless the operator is one of `>`, `<`, `>=`, `<=`. -/
def condResultCmp (text : String) (cols : List String) : Option String :=
  (scanFirst condCmpAt text.data).bind fun wov =>
    let op := wov.2.1
    let rawv := wov.2.2
    let value :=
      if jsIsNaNStr rawv &&
          !(op == ">" || op == "<" || op == ">=" || op == "<=") then
        String.mk [quoteChar] ++ rawv ++ String.mk [quoteChar]
      else rawv
    (findBestColumnMatch wov.1 cols).map fun col => col ++ " " ++ op ++ " " ++ value

/-- Named/called condition (regex 6): `column = 'value'` against a `name`
or `title` column. -/
def condResultNamed (text : String) (cols : List String) : Option String :=
  (scanFirst condNamedAt text.data).bind fun v =>
    (match findBestColumnMatch "name" cols with
     | some c => some c
     | none => findBestColumnMatch "title" cols).map fun col =>
      col ++ " = " ++ String.mk [quoteChar] ++ v ++ String.mk [quoteChar]

/-- The `conditions` array of `extractWhereConditions`: the six condition
patterns tried in source order, successful handlers pushed in order. -/
def whereConditionsList (text : String) (columnNames : List String) : List String :=
  [condResultGt text columnNames, condResultLt text columnNames,
   condResultEq text columnNames, condResultLike text columnNames,
   condResultCmp text columnNames, condResultNamed text columnNames].filterMap id

/-- `extractWhereConditions(text, columnNames, columnTypes)` (lines 421-494).
`columnTypes` is accepted but never read by the source, so it is omitted
here.  Returns `conditions.join(' AND ')` or `null`. -/
def extractWhereConditions (text : String) (columnNames : List String) :
    Option String :=
  let conditions := whereConditionsList text columnNames
  if conditions.isEmpty then none
  else some (String.intercalate " AND " conditions)

end TextToSQL

namespace TextToSQL

/-! ### Clause extractors (server.js, lines 516-571) -/

/-- `text.split(/\s*,\s*/)` followed by `.trim()` on each piece is the same
as splitting at every comma and trimming; the split itself. -/
def splitOnComma : List Char → List (List Char)
  | [] => [[]]
  | c :: cs =>
    match splitOnComma cs with
    | [] => [[c]]
    | p :: ps => if c == ',' then [] :: p :: ps else (c :: p) :: ps

/-- `extractColumns(text, columnNames)` (lines 516-530): `'*'` for an empty
fragment, otherwise resolve each comma-separated token and join the
successes with `', '`, falling back to `'*'`. -/
def extractColumns (text : String) (columnNames : List String) : String :=
  if text == "" then "*"
  else
    let requestedColumns := (splitOnComma text.data).map fun p => trimStr (String.mk p)
    let validColumns := requestedColumns.filterMap fun col => findBestColumnMatch col columnNames
    if validColumns.isEmpty then "*"
    else String.intercalate ", " validColumns

/-- `(?:order by|sort by)\s+(\w+)(?:\s+(asc|desc))?` at one position;
returns the column word and the normalised direction capture. -/
def orderByAt (s : List Char) : Option (String × Option String) :=
  match firstSome (fun ph => matchLitCI ph s) ["order by".data, "sort by".data] with
  | none => none
  | some r =>
    if (r.takeWhile isSpaceChar).isEmpty then none
    else
      let r2 := r.dropWhile isSpaceChar
      let wrd := r2.takeWhile isWordChar
      if wrd.isEmpty then none
      else
        let r3 := r2.dropWhile isWordChar
        let dir : Option String :=
          if (r3.takeWhile isSpaceChar).isEmpty then none
          else
            let r4 := r3.dropWhile isSpaceChar
            if (matchLitCI "asc".data r4).isSome then some "asc"
            else if (matchLitCI "desc".data r4).isSome then some "desc"
            else none
        some (String.mk wrd, dir)

/-- `extractOrderBy(text, columnNames)` (lines 533-541). -/
def extractOrderBy (text : String) (columnNames : List String) : String :=
  match scanFirst orderByAt text.data with
  | none => ""
  | some wd =>
    match findBestColumnMatch wd.1 columnNames with
    | some col => "ORDER BY " ++ col ++ " " ++ upperStr (wd.2.getD "asc")
    | none => ""

/-- First word start after the current position with a newline-free gap
(the `.*?\b(\w+)\b` part of the per-keyword aggregate regex); `prevW` says
whether the previous character is a word character. -/
def aggAfterKw : Bool → List Char → Option String
  | _, [] => none
  | prevW, c :: cs =>
    if !prevW && isWordChar c then some (String.mk ((c :: cs).takeWhile isWordChar))
    else if isNewlineChar c then none
    else aggAfterKw (isWordChar c) cs

/-- One keyword regex `\b<kw>\b.*?\b(\w+)\b` of `extractColumnForAggregate`:
leftmost whole-word occurrence of the keyword that is followed, within the
same line, by a word; captures that word. -/
def aggKwScan (kw : List Char) : Option Char → List Char → Option String
  | prev, [] =>
    match matchWordCI kw prev [] with
    | some rest => aggAfterKw true rest
    | none => none
  | prev, c :: cs =>
    match (matchWordCI kw prev (c :: cs)).bind (aggAfterKw true) with
    | some w => some w
    | none => aggKwScan kw (some c) cs

/-- The keyword loop of `extractColumnForAggregate` (lines 546-553): for
each keyword in order, capture the first word after it and resolve it; a
keyword whose capture does not resolve is skipped. -/
def aggKeywordColumn (text : String) (columnNames keywords : List String) :
    Option String :=
  firstSome
    (fun kw => (aggKwScan (lowerStr kw).data none text.data).bind
      fun w => findBestColumnMatch w columnNames)
    keywords

/-- The numeric-hint filter of `extractColumnForAggregate` (lines 556-562). -/
def numericHint (col : String) : Bool :=
  strIncludes (lowerStr col) "id" || strIncludes (lowerStr col) "age" ||
  strIncludes (lowerStr col) "salary" || strIncludes (lowerStr col) "price" ||
  strIncludes (lowerStr col) "amount"

/-- `extractColumnForAggregate(text, columnNames, keywords)` (lines 544-565).
The JavaScript `numericColumns[0] || columnNames[0]` treats an empty string
as falsy and yields `undefined` (here `none`) on an empty table. -/
def extractColumnForAggregate (text : String) (columnNames keywords : List String) :
    Option String :=
  match aggKeywordColumn text columnNames keywords with
  | some col => some col
  | none =>
    let numericColumns := columnNames.filter numericHint
    match numericColumns.head? with
    | some c => if c == "" then columnNames.head? else some c
    | none => columnNames.head?

/-- `(?:limit|first|top)\s+(\d+)` at one position (the `extractLimit`
regex, which has no word boundaries). -/
def limitAt (s : List Char) : Option String :=
  match firstSome (fun ph => matchLitCI ph s) ["limit".data, "first".data, "top".data] with
  | none => none
  | some r =>
    if (r.takeWhile isSpaceChar).isEmpty then none
    else
      let ds := (r.dropWhile isSpaceChar).takeWhile Char.isDigit
      if ds.isEmpty then none else some (String.mk ds)

/-- `extractLimit(text)` (lines 568-571): matched digits or `'100'`. -/
def extractLimit (text : String) : String :=
  (scanFirst limitAt text.data).getD "100"

end TextToSQL

namespace TextToSQL

/-! ### The twelve trigger regexes of `generateSQLFromText`
(server.js, lines 285-380), as `test` predicates on the lower-cased
trimmed phrase. -/

/-- `\s+<word>` steps of a multi-word literal like `show\s+me\s+all`;
`words` are the remaining words, each preceded by `\s+`; ends with `\b`. -/
def seqTail : List (List Char) → List Char → Bool
  | [], s => boundaryAfterWord s
  | w :: ws, s =>
    if (s.takeWhile isSpaceChar).isEmpty then false
    else
      match matchLitCI w (s.dropWhile isSpaceChar) with
      | some r => seqTail ws r
      | none => false

/-- `\b w1 \s+ w2 ... \s+ wn \b` at the current position. -/
def seqAt (words : List (List Char)) (prev : Option Char) (s : List Char) : Bool :=
  if prevIsWord prev then false
  else
    match words with
    | [] => false
    | w :: ws =>
      match matchLitCI w s with
      | some r => seqTail ws r
      | none => false

/-- A whole-word occurrence of one of `ws` reachable from the current
position through `.*` (so without crossing a line terminator). -/
def findWholeWordNoNL (ws : List (List Char)) : Bool → List Char → Bool
  | _, [] => false
  | prevW, c :: cs =>
    (!prevW && (wordAltCI ws none (c :: cs)).isSome) ||
      (!isNewlineChar c && findWholeWordNoNL ws (isWordChar c) cs)

/-- A word start reachable from the current position through `.*?` (the
`\b(\w+)\b` tail of the aggregate trigger regexes). -/
def findWordStartNoNL : Bool → List Char → Bool
  | _, [] => false
  | prevW, c :: cs =>
    (!prevW && isWordChar c) || (!isNewlineChar c && findWordStartNoNL (isWordChar c) cs)

/-- Trigger 1: `\b(count|how many)\b.*\b(all|everything|records|rows)\b`. -/
def trigCountAll (lowerText : String) : Bool :=
  scanTest
    (fun prev s =>
      match wordAltCI ["count".data, "how many".data] prev s with
      | some rest =>
        findWholeWordNoNL ["all".data, "everything".data, "records".data, "rows".data]
          true rest
      | none => false)
    none lowerText.data

/-- Trigger 2: `\b(count|how many)\b`. -/
def trigCount (lowerText : String) : Bool :=
  scanTest (fun prev s => (wordAltCI ["count".data, "how many".data] prev s).isSome)
    none lowerText.data

/-- Trigger 3:
`\bshow\s+me\s+all\b|\bselect\s+all\b|\bget\s+all\b|\blist\s+all\b|\beverything\b`. -/
def trigShowAll (lowerText : String) : Bool :=
  scanTest
    (fun prev s =>
      seqAt ["show".data, "me".data, "all".data] prev s ||
      seqAt ["select".data, "all".data] prev s ||
      seqAt ["get".data, "all".data] prev s ||
      seqAt ["list".data, "all".data] prev s ||
      seqAt ["everything".data] prev s)
    none lowerText.data

/-- Trigger 4: `\bfind\s+records\s+where\b|\bfilter\s+by\b`. -/
def trigFindWhere (lowerText : String) : Bool :=
  scanTest
    (fun prev s =>
      seqAt ["find".data, "records".data, "where".data] prev s ||
      seqAt ["filter".data, "by".data] prev s)
    none lowerText.data

/-- `\s+where\b` starting exactly at the current position (greedy `\s+`,
then the literal, then a boundary). -/
def wsWhereAt (s : List Char) : Bool :=
  if (s.takeWhile isSpaceChar).isEmpty then false
  else
    match matchLitCI "where".data (s.dropWhile isSpaceChar) with
    | some r => boundaryAfterWord r
    | none => false

/-- The `(.*?)\s+where\b` tail of trigger 5, entered one character after
`show\s`.  `leadWs` records whether every character seen so far is
whitespace (and can therefore still be absorbed by the leading `\s+`,
letting the lazy group start beyond a line terminator). -/
def seekWhere : Bool → List Char → Bool
  | _, [] => false
  | leadWs, c :: cs =>
    wsWhereAt (c :: cs) ||
      (let leadWs2 := leadWs && isSpaceChar c
       (leadWs2 || !isNewlineChar c) && seekWhere leadWs2 cs)

/-- Trigger 5: `\bshow\s+(?:me\s+)?(.*?)\s+where\b` (the optional `me\s+`
adds no matching power to the test, the lazy group can absorb it). -/
def trigShowWhere (lowerText : String) : Bool :=
  scanTest
    (fun prev s =>
      if prevIsWord prev then false
      else
        match matchLitCI "show".data s with
        | some (c :: cs) => isSpaceChar c && seekWhere true cs
        | _ => false)
    none lowerText.data

/-- Character class `[\w\s,]` of trigger 6. -/
def isColListChar (c : Char) : Bool := isWordChar c || isSpaceChar c || c == ','

/-- The `\s+([\w\s,]+)\b` tail of trigger 6: at least one whitespace, and
the class run reachable after it must contain a word character for a
boundary to exist at the end of the capture. -/
def trigOnlyTail : List Char → Bool
  | [] => false
  | c :: cs => isSpaceChar c && ((cs.takeWhile isColListChar).any isWordChar)

/-- `\b(but|only|just)` followed by the trigger-6 tail, reachable through
`.*` (no line terminator). -/
def findOnlyJust : Bool → List Char → Bool
  | _, [] => false
  | prevW, c :: cs =>
    (!prevW &&
      (match firstSome (fun w => matchLitCI w (c :: cs))
          ["but".data, "only".data, "just".data] with
       | some r => trigOnlyTail r
       | none => false)) ||
    (!isNewlineChar c && findOnlyJust (isWordChar c) cs)

/-- Trigger 6: `\b(what|which|show me|display|get)\b.*\b(but|only|just)\s+([\w\s,]+)\b`. -/
def trigOnly (lowerText : String) : Bool :=
  scanTest
    (fun prev s =>
      match wordAltCI ["what".data, "which".data, "show me".data, "display".data,
          "get".data] prev s with
      | some rest => findOnlyJust true rest
      | none => false)
    none lowerText.data

/-- Trigger 7: `\border\s+by\b|\bsort\s+by\b|\bsorted\b`. -/
def trigOrder (lowerText : String) : Bool :=
  scanTest
    (fun prev s =>
      seqAt ["order".data, "by".data] prev s ||
      seqAt ["sort".data, "by".data] prev s ||
      seqAt ["sorted".data] prev s)
    none lowerText.data

/-- Aggregate triggers `\b(<keywords>)\b.*\b(\w+)\b`. -/
def trigAgg (kws : List (List Char)) (lowerText : String) : Bool :=
  scanTest
    (fun prev s =>
      match wordAltCI kws prev s with
      | some rest => findWordStartNoNL true rest
      | none => false)
    none lowerText.data

/-- Trigger 12: `\blimit\s+(\d+)\b|\bfirst\s+(\d+)\b|\btop\s+(\d+)\b`. -/
def trigLimit (lowerText : String) : Bool :=
  scanTest
    (fun prev s =>
      if prevIsWord prev then false
      else
        match firstSome (fun w => matchLitCI w s)
            ["limit".data, "first".data, "top".data] with
        | some r =>
          if (r.takeWhile isSpaceChar).isEmpty then false
          else
            let ds := (r.dropWhile isSpaceChar).takeWhile Char.isDigit
            !ds.isEmpty && boundaryAfterWord ((r.dropWhile isSpaceChar).dropWhile Char.isDigit)
        | none => false)
    none lowerText.data

end TextToSQL

namespace TextToSQL

/-! ### Builder captures for patterns 5 and 6

The builders re-match their own regexes — without word boundaries — against
the original-case text (`text.match(...)`), so they get their own capture
scanners. -/

/-- `\s+where` (builder 5 regex: no trailing boundary) at this position. -/
def b5InnerOk (s : List Char) : Bool :=
  !(s.takeWhile isSpaceChar).isEmpty &&
    (matchLitCI "where".data (s.dropWhile isSpaceChar)).isSome

/-- The lazy group `(.*?)` of builder 5: grow the capture one character at
a time (never across a line terminator) until `\s+where` matches. -/
def b5FindX (acc : List Char) : List Char → Option String
  | [] => none
  | c :: cs =>
    if b5InnerOk (c :: cs) then some (String.mk acc.reverse)
    else if isNewlineChar c then none
    else b5FindX (c :: acc) cs

/-- Greedy `\s+`: try consuming `n` whitespace characters first, then
backtrack down to one. -/
def tryWsThen (f : List Char → Option String) : Nat → List Char → Option String
  | 0, _ => none
  | n + 1, rest =>
    match f (rest.drop (n + 1)) with
    | some r => some r
    | none => tryWsThen f n rest

/-- `\s+` followed by `f`, with greedy backtracking. -/
def afterWs (f : List Char → Option String) (rest : List Char) : Option String :=
  tryWsThen f (rest.takeWhile isSpaceChar).length rest

/-- The `(?:me\s+)?` optional group of builder 5: presence preferred. -/
def b5Opt (after : List Char) : Option String :=
  match
    (match matchLitCI "me".data after with
     | some r2 => afterWs (fun a2 => b5FindX [] a2) r2
     | none => none)
  with
  | some r => some r
  | none => b5FindX [] after

/-- Builder 5 capture: `show\s+(?:me\s+)?(.*?)\s+where` (case-insensitive,
leftmost match) against the original text; `none` models a failed match
(on which the JavaScript builder would throw on `match[1]`). -/
def b5Capture (text : String) : Option String :=
  scanFirst
    (fun s =>
      match matchLitCI "show".data s with
      | some r => afterWs b5Opt r
      | none => none)
    text.data

/-- Builder 6 capture: `(?:but|only|just)\s+([\w\s,]+)` (case-insensitive,
leftmost) against the original text.  The greedy `\s+` backs off by one
character when the class would otherwise be empty. -/
def b6CaptureAt (s : List Char) : Option String :=
  firstSome
    (fun w =>
      match matchLitCI w s with
      | some r =>
        let sp := r.takeWhile isSpaceChar
        if sp.isEmpty then none
        else
          let r2 := r.dropWhile isSpaceChar
          let run := r2.takeWhile isColListChar
          if !run.isEmpty then some (String.mk run)
          else if sp.length ≥ 2 then some (String.mk (sp.drop (sp.length - 1)))
          else none
      | none => none)
    ["but".data, "only".data, "just".data]

/-- Leftmost builder-6 capture. -/
def b6Capture (text : String) : Option String :=
  scanFirst b6CaptureAt text.data

/-! ### `generateSQLFromText` (server.js, lines 281-418) -/

/-- `pattern.sql`: either a plain SQL string or a builder function; a
builder returning `none` models a thrown exception. -/
inductive PatternSql where
  | str : String → PatternSql
  | fn : (String → Option String) → PatternSql

/-- One entry of the `patterns` array: the trigger regex as a `test`
predicate on the lower-cased phrase, plus the SQL part. -/
structure Pattern where
  test : String → Bool
  sql : PatternSql

/-- Template-literal insertion of a possibly-`null` value. -/
def jsTemplate : Option String → String
  | some s => s
  | none => "null"

/-- Template-literal insertion of a possibly-`undefined` value. -/
def jsUndef : Option String → String
  | some s => s
  | none => "undefined"

/-- `conditions ? `WHERE ${conditions}` : ''`. -/
def whereClauseStr : Option String → String
  | some c => "WHERE " ++ c
  | none => ""

/-- The `patterns` array (lines 285-380), in declaration order. -/
def patterns (table : String) (columnNames : List String) : List Pattern :=
  [⟨trigCountAll, PatternSql.str ("SELECT COUNT(*) as count FROM " ++ table)⟩,
   ⟨trigCount, PatternSql.str ("SELECT COUNT(*) as count FROM " ++ table)⟩,
   ⟨trigShowAll, PatternSql.str ("SELECT * FROM " ++ table)⟩,
   ⟨trigFindWhere, PatternSql.fn fun text =>
     some ("SELECT * FROM " ++ table ++ " WHERE " ++
       jsTemplate (extractWhereConditions text columnNames))⟩,
   ⟨trigShowWhere, PatternSql.fn fun text =>
     (b5Capture text).map fun cap =>
       "SELECT " ++ extractColumns cap columnNames ++ " FROM " ++ table ++
         " WHERE " ++ jsTemplate (extractWhereConditions text columnNames)⟩,
   ⟨trigOnly, PatternSql.fn fun text =>
     (b6Capture text).map fun cap =>
       "SELECT " ++ extractColumns cap columnNames ++ " FROM " ++ table⟩,
   ⟨trigOrder, PatternSql.fn fun text =>
     some ("SELECT * FROM " ++ table ++ " " ++
       whereClauseStr (extractWhereConditions text columnNames) ++ " " ++
       extractOrderBy text columnNames)⟩,
   ⟨trigAgg ["avg".data, "average".data, "mean".data], PatternSql.fn fun text =>
     let column := jsUndef (extractColumnForAggregate text columnNames
       ["avg", "average", "mean"])
     some ("SELECT AVG(" ++ column ++ ") as average_" ++ column ++ " FROM " ++ table)⟩,
   ⟨trigAgg ["sum".data, "total".data], PatternSql.fn fun text =>
     let column := jsUndef (extractColumnForAggregate text columnNames
       ["sum", "total"])
     some ("SELECT SUM(" ++ column ++ ") as total_" ++ column ++ " FROM " ++ table)⟩,
   ⟨trigAgg ["max".data, "maximum".data, "highest".data, "largest".data],
    PatternSql.fn fun text =>
     let column := jsUndef (extractColumnForAggregate text columnNames
       ["max", "maximum", "highest", "largest"])
     some ("SELECT MAX(" ++ column ++ ") as max_" ++ column ++ " FROM " ++ table)⟩,
   ⟨trigAgg ["min".data, "minimum".data, "lowest".data, "smallest".data],
    PatternSql.fn fun text =>
     let column := jsUndef (extractColumnForAggregate text columnNames
       ["min", "minimum", "lowest", "smallest"])
     some ("SELECT MIN(" ++ column ++ ") as min_" ++ column ++ " FROM " ++ table)⟩,
   ⟨trigLimit, PatternSql.fn fun text =>
     some ("SELECT * FROM " ++ table ++ " " ++
       whereClauseStr (extractWhereConditions text columnNames) ++
       " LIMIT " ++ extractLimit text)⟩]

/-- The pattern-matching loop (lines 383-403): first pattern whose trigger
tests true against the lower-cased phrase and whose builder does not throw;
a throwing builder (`none`) falls through to the next pattern. -/
def tryPatterns : List Pattern → String → String → Option String
  | [], _, _ => none
  | p :: ps, lowerText, text =>
    if p.test lowerText then
      match p.sql with
      | PatternSql.str s => some s
      | PatternSql.fn f =>
        match f text with
        | some sql => some sql
        | none => tryPatterns ps lowerText text
    else tryPatterns ps lowerText text

/-- The value a pattern contributes when selected (string, or builder
applied to the original text). -/
def patResult (p : Pattern) (text : String) : Option String :=
  match p.sql with
  | PatternSql.str s => some s
  | PatternSql.fn f => f text

/-- The safety clause (lines 396-399): append ` LIMIT 100` unless the
lower-cased SQL contains one of the aggregate/limit substrings. -/
def addLimitSafety (sql : String) : String :=
  if !strIncludes (lowerStr sql) "limit" && !strIncludes (lowerStr sql) "count(" &&
      !strIncludes (lowerStr sql) "avg(" && !strIncludes (lowerStr sql) "sum(" &&
      !strIncludes (lowerStr sql) "max(" && !strIncludes (lowerStr sql) "min(" then
    sql ++ " LIMIT 100"
  else sql

/-- The `{ sqlQuery, error }` object returned by `generateSQLFromText`. -/
structure ConvertResult where
  sqlQuery : String
  error : Option String := none
deriving DecidableEq

/-- `generateSQLFromText(text, table, columnNames, columnTypes)` (lines
281-418).  `columnTypes` is threaded through the source but never read.
The fallback `catch` branch of the source (lines 412-417), which is the
only place the `error` field is set, is unreachable because
`extractWhereConditions` is a total function (it contains no throwing
operation), so the fallback reduces to the `try` branch. -/
def generateSQLFromText (text table : String) (columnNames : List String) :
    ConvertResult :=
  let lowerText := trimStr (lowerStr text)
  match tryPatterns (patterns table columnNames) lowerText text with
  | some sql => { sqlQuery := addLimitSafety sql }
  | none =>
    match extractWhereConditions text columnNames with
    | some conditions =>
      { sqlQuery := "SELECT * FROM " ++ table ++ " WHERE " ++ conditions ++ " LIMIT 100" }
    | none => { sqlQuery := "SELECT * FROM " ++ table ++ " LIMIT 100" }

end TextToSQL

namespace TextToSQL

/-! ### String helper lemmas -/

theorem isPrefixB_append_self (p t : List Char) : isPrefixB p (p ++ t) = true := by
  induction p with
  | nil => rfl
  | cons a as ih => simp [isPrefixB, ih]

theorem isInfixB_append_self (p t : List Char) : isInfixB p (p ++ t) = true := by
  cases p with
  | nil => cases t <;> simp [isInfixB, isPrefixB, List.isEmpty]
  | cons a as =>
    simp only [isInfixB, List.cons_append, Bool.or_eq_true]
    exact Or.inl (isPrefixB_append_self (a :: as) t)

theorem isInfixB_mid (l p r : List Char) : isInfixB p (l ++ (p ++ r)) = true := by
  induction l with
  | nil => simpa using isInfixB_append_self p r
  | cons c cs ih => simp [isInfixB, ih]

theorem isInfixB_nil_of_ne_nil (p : List Char) (h : p ≠ []) : isInfixB p [] = false := by
  cases p with
  | nil => exact absurd rfl h
  | cons a as => rfl

/-- The SQL-string shape every branch of `generateSQLFromText` produces. -/
def GoodSql (table s : String) : Prop :=
  ∃ a b, s = "SELECT " ++ a ++ " FROM " ++ table ++ b

theorem goodSql_startsWith {table s : String} (h : GoodSql table s) :
    strStartsWith s "SELECT " = true := by
  obtain ⟨a, b, rfl⟩ := h
  have e : "SELECT " ++ a ++ " FROM " ++ table ++ b =
      "SELECT " ++ (a ++ (" FROM " ++ (table ++ b))) := by
    simp [String.append_assoc]
  rw [strStartsWith, e, String.data_append]
  exact isPrefixB_append_self _ _

theorem goodSql_includes {table s : String} (h : GoodSql table s) :
    strIncludes s (" FROM " ++ table) = true := by
  obtain ⟨a, b, rfl⟩ := h
  have e : "SELECT " ++ a ++ " FROM " ++ table ++ b =
      ("SELECT " ++ a) ++ ((" FROM " ++ table) ++ b) := by
    simp [String.append_assoc]
  rw [strIncludes, e, String.data_append, String.data_append]
  exact isInfixB_mid _ _ _

theorem goodSql_length {table s : String} (h : GoodSql table s) : 0 < s.length := by
  obtain ⟨a, b, rfl⟩ := h
  have e : "SELECT " ++ a ++ " FROM " ++ table ++ b =
      "SELECT " ++ (a ++ (" FROM " ++ (table ++ b))) := by
    simp [String.append_assoc]
  rw [e]
  show 0 < ("SELECT " ++ (a ++ (" FROM " ++ (table ++ b)))).data.length
  rw [String.data_append, List.length_append]
  have h7 : ("SELECT " : String).data.length = 7 := by decide
  omega

theorem addLimitSafety_good {table s : String} (h : GoodSql table s) :
    GoodSql table (addLimitSafety s) := by
  obtain ⟨a, b, rfl⟩ := h
  rw [addLimitSafety]
  split
  · exact ⟨a, b ++ " LIMIT 100", by simp [String.append_assoc]⟩
  · exact ⟨a, b, rfl⟩

end TextToSQL

namespace TextToSQL

theorem patterns_good (table : String) (cols : List String) (text : String) :
    ∀ p ∈ patterns table cols, ∀ s, patResult p text = some s → GoodSql table s := by
  intro p hp s hs
  simp only [patterns, List.mem_cons, List.not_mem_nil, or_false] at hp
  have ecount : ("SELECT COUNT(*) as count FROM " : String) =
      "SELECT " ++ "COUNT(*) as count" ++ " FROM " := by decide
  have estar : ("SELECT * FROM " : String) = "SELECT " ++ "*" ++ " FROM " := by decide
  have eavg : ("SELECT AVG(" : String) = "SELECT " ++ "AVG(" := by decide
  have esum : ("SELECT SUM(" : String) = "SELECT " ++ "SUM(" := by decide
  have emax : ("SELECT MAX(" : String) = "SELECT " ++ "MAX(" := by decide
  have emin : ("SELECT MIN(" : String) = "SELECT " ++ "MIN(" := by decide
  have esel : ("SELECT " : String) = "SELECT " ++ "" := by decide
  rcases hp with rfl | rfl | rfl | rfl | rfl | rfl | rfl | rfl | rfl | rfl | rfl | rfl
  · simp only [patResult] at hs
    injection hs with h; subst h
    exact ⟨"COUNT(*) as count", "", by
      rw [String.append_empty, ← ecount]⟩
  · simp only [patResult] at hs
    injection hs with h; subst h
    exact ⟨"COUNT(*) as count", "", by
      rw [String.append_empty, ← ecount]⟩
  · simp only [patResult] at hs
    injection hs with h; subst h
    exact ⟨"*", "", by rw [String.append_empty, ← estar]⟩
  · simp only [patResult] at hs
    injection hs with h; subst h
    refine ⟨"*", " WHERE " ++ jsTemplate (extractWhereConditions text cols), ?_⟩
    rw [estar]; simp [String.append_assoc]
  · simp only [patResult, Option.map_eq_some'] at hs
    obtain ⟨cap, hcap, h⟩ := hs
    subst h
    refine ⟨extractColumns cap cols,
      " WHERE " ++ jsTemplate (extractWhereConditions text cols), ?_⟩
    simp [String.append_assoc]
  · simp only [patResult, Option.map_eq_some'] at hs
    obtain ⟨cap, hcap, h⟩ := hs
    subst h
    exact ⟨extractColumns cap cols, "", by rw [String.append_empty]⟩
  · simp only [patResult] at hs
    injection hs with h; subst h
    refine ⟨"*", " " ++ whereClauseStr (extractWhereConditions text cols) ++ " " ++
      extractOrderBy text cols, ?_⟩
    rw [estar]; simp [String.append_assoc]
  · simp only [patResult] at hs
    injection hs with h; subst h
    refine ⟨"AVG(" ++ jsUndef (extractColumnForAggregate text cols
        ["avg", "average", "mean"]) ++ ") as average_" ++
      jsUndef (extractColumnForAggregate text cols ["avg", "average", "mean"]),
      "", ?_⟩
    simp only [String.append_empty, String.append_assoc]
    rw [eavg, String.append_assoc]
  · simp only [patResult] at hs
    injection hs with h; subst h
    refine ⟨"SUM(" ++ jsUndef (extractColumnForAggregate text cols
        ["sum", "total"]) ++ ") as total_" ++
      jsUndef (extractColumnForAggregate text cols ["sum", "total"]), "", ?_⟩
    simp only [String.append_empty, String.append_assoc]
    rw [esum, String.append_assoc]
  · simp only [patResult] at hs
    injection hs with h; subst h
    refine ⟨"MAX(" ++ jsUndef (extractColumnForAggregate text cols
        ["max", "maximum", "highest", "largest"]) ++ ") as max_" ++
      jsUndef (extractColumnForAggregate text cols
        ["max", "maximum", "highest", "largest"]), "", ?_⟩
    simp only [String.append_empty, String.append_assoc]
    rw [emax, String.append_assoc]
  · simp only [patResult] at hs
    injection hs with h; subst h
    refine ⟨"MIN(" ++ jsUndef (extractColumnForAggregate text cols
        ["min", "minimum", "lowest", "smallest"]) ++ ") as min_" ++
      jsUndef (extractColumnForAggregate text cols
        ["min", "minimum", "lowest", "smallest"]), "", ?_⟩
    simp only [String.append_empty, String.append_assoc]
    rw [emin, String.append_assoc]
  · simp only [patResult] at hs
    injection hs with h; subst h
    refine ⟨"*", " " ++ whereClauseStr (extractWhereConditions text cols) ++
      " LIMIT " ++ extractLimit text, ?_⟩
    rw [estar]; simp [String.append_assoc]

theorem tryPatterns_cons (p : Pattern) (ps : List Pattern) (lt text : String) :
    tryPatterns (p :: ps) lt text =
      if p.test lt then
        match patResult p text with
        | some s => some s
        | none => tryPatterns ps lt text
      else tryPatterns ps lt text := by
  cases hsql : p.sql with
  | str s0 => simp [tryPatterns, patResult, hsql]
  | fn f => cases hf : f text <;> simp [tryPatterns, patResult, hsql, hf]

theorem tryPatterns_good (table text : String) :
    ∀ (ps : List Pattern) (lt : String),
      (∀ p ∈ ps, ∀ s, patResult p text = some s → GoodSql table s) →
      ∀ s, tryPatterns ps lt text = some s → GoodSql table s := by
  intro ps
  induction ps with
  | nil => intro lt h s hs; simp [tryPatterns] at hs
  | cons p ps ih =>
    intro lt h s hs
    rw [tryPatterns_cons] at hs
    by_cases ht : p.test lt
    · rw [if_pos ht] at hs
      cases hr : patResult p text with
      | some s0 =>
        simp only [hr] at hs
        injection hs with h0
        subst h0
        exact h p (List.mem_cons_self _ _) s0 hr
      | none =>
        simp only [hr] at hs
        exact ih lt (fun q hq => h q (List.mem_cons_of_mem _ hq)) s hs
    · rw [if_neg ht] at hs
      exact ih lt (fun q hq => h q (List.mem_cons_of_mem _ hq)) s hs

/-- Every SQL string `generateSQLFromText` returns has the
`SELECT ... FROM <table> ...` shape. -/
theorem generateSQL_good (text table : String) (cols : List String) :
    GoodSql table (generateSQLFromText text table cols).sqlQuery := by
  rw [generateSQLFromText]
  cases htp : tryPatterns (patterns table cols) (trimStr (lowerStr text)) text with
  | some sql =>
    simp only [htp]
    exact addLimitSafety_good
      (tryPatterns_good table text _ _ (patterns_good table cols text) sql htp)
  | none =>
    simp only [htp]
    cases hc : extractWhereConditions text cols with
    | some conditions =>
      simp only [hc]
      refine ⟨"*", " WHERE " ++ conditions ++ " LIMIT 100", ?_⟩
      rw [show ("SELECT * FROM " : String) = "SELECT " ++ "*" ++ " FROM " from by decide]
      simp [String.append_assoc]
    | none =>
      simp only [hc]
      exact ⟨"*", " LIMIT 100",
        by rw [show ("SELECT * FROM " : String) = "SELECT " ++ "*" ++ " FROM " from by decide]⟩

end TextToSQL

namespace TextToSQL

/-! ### Small helper lemmas for the claim theorems -/

theorem length_pos_left (x y : String) (h : 0 < x.length) : 0 < (x ++ y).length := by
  have h2 : 0 < x.data.length := h
  show 0 < (x ++ y).data.length
  rw [String.data_append, List.length_append]
  omega

theorem length_pos_right (x y : String) (h : 0 < y.length) : 0 < (x ++ y).length := by
  have h2 : 0 < y.data.length := h
  show 0 < (x ++ y).data.length
  rw [String.data_append, List.length_append]
  omega

theorem mem_of_head?_some {α : Type} {l : List α} {a : α} (h : l.head? = some a) :
    a ∈ l := by
  cases l with
  | nil => cases h
  | cons x xs =>
    injection h with h2
    exact h2 ▸ List.mem_cons_self x xs

theorem tryPatterns_none_of_tests (ps : List Pattern) (lt t : String)
    (h : ∀ p ∈ ps, p.test lt = false) : tryPatterns ps lt t = none := by
  induction ps with
  | nil => rfl
  | cons p ps ih =>
    rw [tryPatterns_cons, if_neg]
    · exact ih fun q hq => h q (List.mem_cons_of_mem _ hq)
    · rw [h p (List.mem_cons_self _ _)]
      exact Bool.false_ne_true

theorem numericHint_ne_empty {s : String} (h : numericHint s = true) : s ≠ "" := by
  intro he
  rw [he] at h
  exact absurd h (by decide)

/-- On a non-degenerate table the JavaScript `numericColumns[0] ||
columnNames[0]` is a plain `orElse`: the numeric-hint filter can never
produce the empty string (each hint substring is nonempty). -/
theorem extractColumnForAggregate_eq (text : String) (cols kws : List String) :
    extractColumnForAggregate text cols kws =
      ((aggKeywordColumn text cols kws) <|>
        (((cols.filter numericHint).head?) <|> cols.head?)) := by
  rw [extractColumnForAggregate]
  cases hk : aggKeywordColumn text cols kws with
  | some c => rfl
  | none =>
    simp only
    cases hh : (cols.filter numericHint).head? with
    | some s =>
      have hs : s ≠ "" := by
        have hmem : s ∈ cols.filter numericHint := mem_of_head?_some hh
        exact numericHint_ne_empty (List.of_mem_filter hmem)
      have hbeq : (s == "") = false := by
        rw [beq_eq_false_iff_ne]
        exact hs
      simp [hh, hbeq, Option.orElse]
    | none => simp [hh, Option.orElse]

end TextToSQL

namespace TextToSQL

/-! ### Resolver tier lemmas (shared by the C3 and C8 theorems) -/

theorem tierStep (p : String → Bool) (cols : List String) (q : Option String) :
    (if jsTruthy (cols.find? p) then cols.find? p else q) =
      (tierHit p cols).orElse (fun _ => q) := by
  cases h : cols.find? p with
  | some m =>
    by_cases hm : (m == "") = true
    · simp [jsTruthy, tierHit, h, hm, Option.orElse]
    · simp only [Bool.not_eq_true] at hm
      simp [jsTruthy, tierHit, h, hm, Option.orElse]
  | none => simp [jsTruthy, tierHit, h, Option.orElse]

theorem findBestColumnMatch_eq_tiers (word : String) (cols : List String) :
    findBestColumnMatch word cols = resolveSpecTruthy word cols := by
  simp only [findBestColumnMatch, resolveSpecTruthy]
  rw [tierStep, tierStep, tierStep]
  cases tierHit (fun col => strIncludes (lowerStr word) (lowerStr col)) cols <;> rfl

theorem tierHit_plain (p : String → Bool) (cols : List String) (h : "" ∉ cols) :
    tierHit p cols = cols.find? p := by
  cases he : cols.find? p with
  | some m =>
    have hmem : m ∈ cols := List.mem_of_find?_eq_some he
    have hm : (m == "") = false := by
      rw [beq_eq_false_iff_ne]
      intro hemp
      exact h (hemp ▸ hmem)
    simp [tierHit, he, hm]
  | none => simp [tierHit, he]

theorem tierHit_mem {p : String → Bool} {cols : List String} {m : String}
    (h : tierHit p cols = some m) : m ∈ cols := by
  rw [tierHit] at h
  cases he : cols.find? p with
  | some m0 =>
    simp only [he] at h
    by_cases h0 : (m0 == "") = true
    · rw [if_pos h0] at h; cases h
    · rw [if_neg h0] at h
      injection h with h1
      exact h1 ▸ List.mem_of_find?_eq_some he
  | none => simp only [he] at h; cases h

/-! ### Claim theorems -/

/-- Counterexample to claim C3 as stated: at word `x` against the single
empty-named column, tier 3 of the claimed order (the column name `""` is a
substring of `x`) would return that column — the spec-side `resolveSpec`
does — but the program's truthiness guard treats the found empty string as
falsy and returns null. -/
theorem claim_C3_counterexample :
    resolveSpec "x" [""] = some "" ∧ findBestColumnMatch "x" [""] = none :=
  ⟨by decide, by decide⟩

/-- Claim C3 (amended): the resolver returns the first column matching
tier 1 (case-insensitive equality), else tier 2 (column contains word),
else tier 3 (word contains column), else null — except that a tier whose
first matching column is the empty-named column is treated as not matching
(JavaScript truthiness) and resolution falls to the next tier.  On column
lists without an empty-named column this is exactly the original
three-tier description. -/
theorem claim_C3_resolver_tiers :
    (∀ (word : String) (cols : List String),
        findBestColumnMatch word cols = resolveSpecTruthy word cols) ∧
      (∀ (word : String) (cols : List String), "" ∉ cols →
        findBestColumnMatch word cols = resolveSpec word cols) := by
  refine ⟨findBestColumnMatch_eq_tiers, ?_⟩
  intro word cols h
  rw [findBestColumnMatch_eq_tiers, resolveSpecTruthy, resolveSpec,
    tierHit_plain _ _ h, tierHit_plain _ _ h, tierHit_plain _ _ h]

/-- Witness for the amended C3 at a concrete input without empty-named
columns. -/
theorem claim_C3_witness :
    findBestColumnMatch "age" ["id", "age"] = resolveSpec "age" ["id", "age"] :=
  claim_C3_resolver_tiers.2 "age" ["id", "age"] (by decide)

/-- Claim C8: the column resolver never fabricates a name: a `some` result
is an element of the supplied column list. -/
theorem claim_C8_resolver_mem (word : String) (cols : List String) (c : String)
    (h : findBestColumnMatch word cols = some c) : c ∈ cols := by
  rw [findBestColumnMatch_eq_tiers, resolveSpecTruthy] at h
  cases e1 : tierHit (fun col => lowerStr col == lowerStr word) cols with
  | some m =>
    rw [e1, Option.some_orElse] at h
    injection h with h1
    exact h1 ▸ tierHit_mem e1
  | none =>
    rw [e1, Option.none_orElse] at h
    cases e2 : tierHit (fun col => strIncludes (lowerStr col) (lowerStr word)) cols with
    | some m =>
      rw [e2, Option.some_orElse] at h
      injection h with h2
      exact h2 ▸ tierHit_mem e2
    | none =>
      rw [e2, Option.none_orElse] at h
      exact tierHit_mem h

/-- Witness for C8 at a concrete input. -/
theorem claim_C8_witness :
    findBestColumnMatch "age" ["id", "name", "age"] = some "age" ∧
      "age" ∈ ["id", "name", "age"] :=
  ⟨by decide, claim_C8_resolver_mem "age" ["id", "name", "age"] "age" (by decide)⟩

/-- Claim C5: the translation is total and always yields a (nonempty) SQL
string; in the embedding every operation of the source is a total
function, and the result's `sqlQuery` field is never empty. -/
theorem claim_C5_total (text table : String) (cols : List String) :
    0 < ((generateSQLFromText text table cols).sqlQuery).length :=
  goodSql_length (generateSQL_good text table cols)

/-- Claim C10: every returned SQL string starts with `SELECT ` and
contains ` FROM <table>`; in particular no INSERT/UPDATE/DELETE/DDL
statement is ever produced. -/
theorem claim_C10_select_shape (text table : String) (cols : List String) :
    strStartsWith (generateSQLFromText text table cols).sqlQuery "SELECT " = true ∧
      strIncludes (generateSQLFromText text table cols).sqlQuery
        (" FROM " ++ table) = true :=
  ⟨goodSql_startsWith (generateSQL_good text table cols),
   goodSql_includes (generateSQL_good text table cols)⟩

end TextToSQL

namespace TextToSQL

/-- Claim C7: the documented example input produces exactly
`SELECT * FROM users WHERE age > 20 LIMIT 100`. -/
theorem claim_C7_example :
    generateSQLFromText "users where age greater than 20" "users"
        ["id", "name", "age"] =
      { sqlQuery := "SELECT * FROM users WHERE age > 20 LIMIT 100", error := none } := by
  decide

/-- Counterexample to claim C1 as stated: on a phrase that matches no rule
trigger and yields no condition, the translation returns the fallback SQL
but `error` is `none` — no warning is attached (the `catch` branch holding
the warning is unreachable). -/
theorem claim_C1_counterexample :
    (∀ p ∈ patterns "users" ["id", "name", "age"],
        p.test (trimStr (lowerStr "hello world")) = false) ∧
      extractWhereConditions "hello world" ["id", "name", "age"] = none ∧
      generateSQLFromText "hello world" "users" ["id", "name", "age"] =
        { sqlQuery := "SELECT * FROM users LIMIT 100", error := none } := by
  refine ⟨by decide, by decide, by decide⟩

/-- Claim C1 (amended): when no trigger matches and the WHERE extractor
yields nothing, the translation returns exactly
`SELECT * FROM <table> LIMIT 100` — with no warning. -/
theorem claim_C1_amended_fallback (text table : String) (cols : List String)
    (h1 : ∀ p ∈ patterns table cols, p.test (trimStr (lowerStr text)) = false)
    (h2 : extractWhereConditions text cols = none) :
    generateSQLFromText text table cols =
      { sqlQuery := "SELECT * FROM " ++ table ++ " LIMIT 100", error := none } := by
  have h3 := tryPatterns_none_of_tests (patterns table cols)
    (trimStr (lowerStr text)) text h1
  simp only [generateSQLFromText, h3, h2]

/-- Witness for the amended C1 at a concrete input. -/
theorem claim_C1_witness :
    generateSQLFromText "hello world" "users" ["id"] =
      { sqlQuery := "SELECT * FROM " ++ "users" ++ " LIMIT 100", error := none } :=
  claim_C1_amended_fallback "hello world" "users" ["id"] (by decide) (by decide)

/-- Claim C2: when a rule is selected and its builder succeeds with SQL
text `sql`, the call returns `sql` with ` LIMIT 100` appended exactly when
the lower-cased text contains none of the limit/aggregate substrings, and
`sql` unchanged otherwise (and no warning either way). -/
theorem claim_C2_limit_append (text table : String) (cols : List String)
    (sql : String)
    (h : tryPatterns (patterns table cols) (trimStr (lowerStr text)) text = some sql) :
    (generateSQLFromText text table cols).error = none ∧
      ((strIncludes (lowerStr sql) "limit" = false ∧
        strIncludes (lowerStr sql) "count(" = false ∧
        strIncludes (lowerStr sql) "avg(" = false ∧
        strIncludes (lowerStr sql) "sum(" = false ∧
        strIncludes (lowerStr sql) "max(" = false ∧
        strIncludes (lowerStr sql) "min(" = false) →
        (generateSQLFromText text table cols).sqlQuery = sql ++ " LIMIT 100") ∧
      ((strIncludes (lowerStr sql) "limit" = true ∨
        strIncludes (lowerStr sql) "count(" = true ∨
        strIncludes (lowerStr sql) "avg(" = true ∨
        strIncludes (lowerStr sql) "sum(" = true ∨
        strIncludes (lowerStr sql) "max(" = true ∨
        strIncludes (lowerStr sql) "min(" = true) →
        (generateSQLFromText text table cols).sqlQuery = sql) := by
  refine ⟨?_, ?_, ?_⟩
  · simp only [generateSQLFromText, h]
  · rintro ⟨h1, h2, h3, h4, h5, h6⟩
    simp only [generateSQLFromText, h]
    rw [addLimitSafety, if_pos]
    rw [h1, h2, h3, h4, h5, h6]
    rfl
  · intro hor
    have hc : (!strIncludes (lowerStr sql) "limit" &&
        !strIncludes (lowerStr sql) "count(" && !strIncludes (lowerStr sql) "avg(" &&
        !strIncludes (lowerStr sql) "sum(" && !strIncludes (lowerStr sql) "max(" &&
        !strIncludes (lowerStr sql) "min(") = false := by
      rcases hor with h1 | h1 | h1 | h1 | h1 | h1 <;> simp [h1]
    simp only [generateSQLFromText, h]
    rw [addLimitSafety, if_neg]
    rw [hc]
    exact Bool.false_ne_true

/-- Witness for C2 at a concrete input (the "show all" rule). -/
theorem claim_C2_witness :
    tryPatterns (patterns "users" ["id", "name", "age"])
        (trimStr (lowerStr "show me all users")) "show me all users" =
      some "SELECT * FROM users" ∧
      (generateSQLFromText "show me all users" "users" ["id", "name", "age"]).sqlQuery =
        "SELECT * FROM users" ++ " LIMIT 100" :=
  ⟨by decide,
   (claim_C2_limit_append "show me all users" "users" ["id", "name", "age"]
      "SELECT * FROM users" (by decide)).2.1
    ⟨by decide, by decide, by decide, by decide, by decide, by decide⟩⟩

/-- Claim C6: a matching rule whose builder throws is skipped, the loop
continuing with the remaining rules in order; in general the rule used is
the first matching rule whose builder succeeds. -/
theorem claim_C6_skip_on_throw :
    (∀ (p : Pattern) (ps : List Pattern) (lowerText text : String)
        (f : String → Option String),
        p.sql = PatternSql.fn f → p.test lowerText = true → f text = none →
        tryPatterns (p :: ps) lowerText text = tryPatterns ps lowerText text) ∧
      (∀ (ps : List Pattern) (lowerText text : String),
        tryPatterns ps lowerText text =
          firstSome (fun p => if p.test lowerText then patResult p text else none) ps) := by
  constructor
  · intro p ps lowerText text f hsql ht hf
    rw [tryPatterns_cons, if_pos ht]
    simp [patResult, hsql, hf]
  · intro ps lowerText text
    induction ps with
    | nil => rfl
    | cons p ps ih =>
      rw [tryPatterns_cons, firstSome]
      by_cases ht : p.test lowerText
      · simp only [if_pos ht]
        cases hr : patResult p text <;> simp [hr, ih]
      · simp only [if_neg ht]
        simp [ih]

/-- Witness for C6: a concrete two-rule list where the first rule matches
but its builder throws, and the second rule is used. -/
theorem claim_C6_witness :
    tryPatterns
        [⟨fun _ => true, PatternSql.fn fun _ => none⟩,
         ⟨fun _ => true, PatternSql.str "SELECT 1"⟩] "x" "y" =
      tryPatterns [⟨fun _ => true, PatternSql.str "SELECT 1"⟩] "x" "y" :=
  claim_C6_skip_on_throw.1 ⟨fun _ => true, PatternSql.fn fun _ => none⟩
    [⟨fun _ => true, PatternSql.str "SELECT 1"⟩] "x" "y" (fun _ => none) rfl rfl rfl

end TextToSQL

namespace TextToSQL

/-! ### Nonemptiness of individual conditions (for claim C9) -/

theorem condResultGt_pos (text : String) (cols : List String) (c : String)
    (h : condResultGt text cols = some c) : 0 < c.length := by
  rw [condResultGt, Option.bind_eq_some] at h
  obtain ⟨wn, _, h2⟩ := h
  rw [Option.map_eq_some'] at h2
  obtain ⟨col, _, rfl⟩ := h2
  exact length_pos_left _ _ (length_pos_right _ _ (by decide))

theorem condResultLt_pos (text : String) (cols : List String) (c : String)
    (h : condResultLt text cols = some c) : 0 < c.length := by
  rw [condResultLt, Option.bind_eq_some] at h
  obtain ⟨wn, _, h2⟩ := h
  rw [Option.map_eq_some'] at h2
  obtain ⟨col, _, rfl⟩ := h2
  exact length_pos_left _ _ (length_pos_right _ _ (by decide))

theorem condResultEq_pos (text : String) (cols : List String) (c : String)
    (h : condResultEq text cols = some c) : 0 < c.length := by
  rw [condResultEq, Option.bind_eq_some] at h
  obtain ⟨wn, _, h2⟩ := h
  rw [Option.map_eq_some'] at h2
  obtain ⟨col, _, rfl⟩ := h2
  exact length_pos_left _ _ (length_pos_right _ _ (by decide))

theorem condResultLike_pos (text : String) (cols : List String) (c : String)
    (h : condResultLike text cols = some c) : 0 < c.length := by
  rw [condResultLike, Option.bind_eq_some] at h
  obtain ⟨wn, _, h2⟩ := h
  rw [Option.map_eq_some'] at h2
  obtain ⟨col, _, rfl⟩ := h2
  exact length_pos_left _ _ (length_pos_left _ _
    (length_pos_left _ _ (length_pos_right _ _ (by decide))))

theorem condResultCmp_pos (text : String) (cols : List String) (c : String)
    (h : condResultCmp text cols = some c) : 0 < c.length := by
  rw [condResultCmp, Option.bind_eq_some] at h
  obtain ⟨wov, _, h2⟩ := h
  rw [Option.map_eq_some'] at h2
  obtain ⟨col, _, rfl⟩ := h2
  exact length_pos_left _ _ (length_pos_left _ _
    (length_pos_left _ _ (length_pos_right _ _ (by decide))))

theorem condResultNamed_pos (text : String) (cols : List String) (c : String)
    (h : condResultNamed text cols = some c) : 0 < c.length := by
  rw [condResultNamed, Option.bind_eq_some] at h
  obtain ⟨v, _, h2⟩ := h
  rw [Option.map_eq_some'] at h2
  obtain ⟨col, _, rfl⟩ := h2
  exact length_pos_left _ _ (length_pos_left _ _
    (length_pos_left _ _ (length_pos_right _ _ (by decide))))

theorem whereConditionsList_pos (text : String) (cols : List String) :
    ∀ c ∈ whereConditionsList text cols, 0 < c.length := by
  intro c hc
  rw [whereConditionsList, List.mem_filterMap] at hc
  obtain ⟨a, ha, hac⟩ := hc
  simp only [List.mem_cons, List.not_mem_nil, or_false] at ha
  simp only [id] at hac
  rcases ha with rfl | rfl | rfl | rfl | rfl | rfl
  · exact condResultGt_pos text cols c hac
  · exact condResultLt_pos text cols c hac
  · exact condResultEq_pos text cols c hac
  · exact condResultLike_pos text cols c hac
  · exact condResultCmp_pos text cols c hac
  · exact condResultNamed_pos text cols c hac

/-- Claim C9: the WHERE-condition extractor is total (its body has no
throwing operation) and returns either null or the nonempty ` AND `-joined
conjunction of its (individually nonempty) conditions; consequently the
`catch` branch of the no-rule fallback is dead and `error` is always
`none`. -/
theorem claim_C9_where_total (text : String) (cols : List String) :
    (extractWhereConditions text cols = none ∨
      ∃ l : List String, l ≠ [] ∧ (∀ c ∈ l, 0 < c.length) ∧
        extractWhereConditions text cols =
          some (String.intercalate " AND " l)) ∧
      ∀ table : String, (generateSQLFromText text table cols).error = none := by
  constructor
  · by_cases h : (whereConditionsList text cols).isEmpty
    · left
      rw [extractWhereConditions]
      simp [h]
    · right
      refine ⟨whereConditionsList text cols, ?_, whereConditionsList_pos text cols, ?_⟩
      · intro he
        rw [he] at h
        exact h rfl
      · rw [extractWhereConditions]
        simp [h]
  · intro table
    rw [generateSQLFromText]
    cases htp : tryPatterns (patterns table cols) (trimStr (lowerStr text)) text with
    | some sql => simp [htp]
    | none =>
      simp only [htp]
      cases hc : extractWhereConditions text cols <;> simp [hc]

/-- Counterexample to claim C4 as stated: on an empty column list the
aggregate-column extractor returns no column at all (the JavaScript
function yields `undefined`). -/
theorem claim_C4_counterexample :
    extractColumnForAggregate "average price" [] ["avg", "average", "mean"] = none := by
  decide

/-- Claim C4 (amended): on a nonempty column list the aggregate-column
extractor always returns some column, namely the resolved word following
an aggregate keyword, else the first numeric-hint column, else the first
column. -/
theorem claim_C4_amended_total (text : String) (cols kws : List String)
    (h : cols ≠ []) :
    (∃ c, extractColumnForAggregate text cols kws = some c) ∧
      extractColumnForAggregate text cols kws =
        ((aggKeywordColumn text cols kws) <|>
          (((cols.filter numericHint).head?) <|> cols.head?)) := by
  refine ⟨?_, extractColumnForAggregate_eq text cols kws⟩
  rw [extractColumnForAggregate_eq]
  cases hk : aggKeywordColumn text cols kws with
  | some c => exact ⟨c, rfl⟩
  | none =>
    cases hh : (cols.filter numericHint).head? with
    | some s => exact ⟨s, by simp [Option.orElse]⟩
    | none =>
      cases cols with
      | nil => exact absurd rfl h
      | cons a as => exact ⟨a, by simp [hh, Option.orElse]⟩

/-- Witness for the amended C4 at a concrete input. -/
theorem claim_C4_witness :
    ∃ c, extractColumnForAggregate "average price" ["qty"]
        ["avg", "average", "mean"] = some c :=
  (claim_C4_amended_total "average price" ["qty"] ["avg", "average", "mean"]
    (by decide)).1

end TextToSQL
